import Mathlib

/-!
Verification of the Portfilo backend (`src/server.js`).

The source file contains two variants of the same Express server:
a basic variant (first half of the file) and an enhanced variant
(second half).  Both expose upload / list / update / delete routes for
stored files, a contact-form route, and (enhanced only) a contact
listing and a health check.  This development embeds the data model and
the request handlers shallowly: the MongoDB collections become Lean
lists kept in insertion order, the uploads directory becomes a list of
stored names, and the fallibility of the external services (MongoDB
insert, SMTP relay) is exposed as explicit boolean outcome parameters,
one per awaited call, so that every control path of the handlers is a
path of the Lean function.
-/

namespace Portfilo

/-- One document of the `File` collection (`fileSchema` in both variants;
the `description` field exists only in the enhanced schema and defaults
to the empty string). Timestamps are modelled as naturals. -/
structure FileRec where
  id : Nat
  filename : String
  originalName : String
  mimetype : String
  size : Nat
  description : String
  uploadDate : Nat
deriving DecidableEq

/-- One document of the `Contact` collection (`contactSchema`).  The
basic variant has no `status` field (modelled as `none`); the enhanced
variant defaults it to `"unread"`. -/
structure ContactRec where
  id : Nat
  name : String
  email : String
  subject : Option String
  message : String
  date : Nat
  status : Option String
deriving DecidableEq

/-- The observable persistent state of the server: the two MongoDB
collections in insertion order, the names present in the `uploads/`
directory, the next identifier the repository will assign, and the
`mongoose.connection` readiness flag. -/
structure ServerState where
  files : List FileRec
  contacts : List ContactRec
  disk : List String
  nextId : Nat
  dbConnected : Bool
deriving DecidableEq

/-- JavaScript truthiness of an optional string field of `req.body`:
`!x` holds exactly when the field is missing (`undefined`) or the empty
string. -/
def truthy : Option String → Bool
  | none => false
  | some s => s != ""

/-- Body of a `POST /api/contact` request. -/
structure ContactReq where
  name : Option String
  email : Option String
  subject : Option String
  message : Option String
deriving DecidableEq

/-- Outcome of a contact-form request: HTTP status, resulting server
state, and how many `transporter.sendMail` calls were attempted. -/
structure ContactOutcome where
  status : Nat
  st : ServerState
  emailsAttempted : Nat
deriving DecidableEq

/-- The contact document built by `new Contact({ name, email, subject,
message })` in the basic variant. -/
def mkContactBasic (req : ContactReq) (now idv : Nat) : ContactRec :=
  { id := idv, name := req.name.getD "", email := req.email.getD "",
    subject := req.subject, message := req.message.getD "",
    date := now, status := none }

/-- The contact document built in the enhanced variant; its schema
defaults `status` to `"unread"`. -/
def mkContactEnhanced (req : ContactReq) (now idv : Nat) : ContactRec :=
  { mkContactBasic req now idv with status := some "unread" }

/-- Handler of `POST /api/contact`, basic variant (`server.js` lines
110-127).  Validation happens before the `try` block; inside it the
document is saved and then one owner notification is sent; any failure
after validation is caught and mapped to 500.  `saveOk` is the outcome
of the awaited `save()`, `sendOk` the outcome of the awaited
`sendMail`. -/
def postContactBasic (req : ContactReq) (now : Nat) (saveOk sendOk : Bool)
    (s : ServerState) : ContactOutcome :=
  if !truthy req.name || !truthy req.email || !truthy req.message then
    ⟨400, s, 0⟩
  else if !saveOk then
    ⟨500, s, 0⟩
  else
    let s1 : ServerState :=
      { s with contacts := s.contacts ++ [mkContactBasic req now s.nextId],
               nextId := s.nextId + 1 }
    if sendOk then ⟨200, s1, 1⟩ else ⟨500, s1, 1⟩

/-- Handler of `POST /api/contact`, enhanced variant (`server.js` lines
323-393).  After the save, an owner notification and then an auto-reply
are awaited in sequence; a failure of either is caught and mapped to
500, and the second send is not attempted when the first one throws. -/
def postContactEnhanced (req : ContactReq) (now : Nat)
    (saveOk send1Ok send2Ok : Bool) (s : ServerState) : ContactOutcome :=
  if !truthy req.name || !truthy req.email || !truthy req.message then
    ⟨400, s, 0⟩
  else if !saveOk then
    ⟨500, s, 0⟩
  else
    let s1 : ServerState :=
      { s with contacts := s.contacts ++ [mkContactEnhanced req now s.nextId],
               nextId := s.nextId + 1 }
    if !send1Ok then ⟨500, s1, 1⟩
    else if !send2Ok then ⟨500, s1, 2⟩
    else ⟨200, s1, 2⟩

/-- The multer `fileSize` limit, `50 * 1024 * 1024` bytes in both
variants. -/
def sizeLimit : Nat := 50 * 1024 * 1024

/-- Decimal digit list of a natural number, most significant first,
with explicit structural fuel so that the definition computes by kernel
reduction.  `natToString` below packages it as the JavaScript
`Number#toString` rendering used when `Date.now()` and the rounded
random component are spliced into a template string. -/
def natToChars : Nat → Nat → List Char
  | 0, _ => []
  | fuel + 1, n =>
    if n < 10 then [Nat.digitChar n]
    else natToChars fuel (n / 10) ++ [Nat.digitChar (n % 10)]

/-- Decimal rendering of a natural number, as JavaScript renders a
nonnegative integer inside a template string. -/
def natToString (n : Nat) : String := ⟨natToChars (n + 1) n⟩

/-- The stored name generated by the multer `diskStorage.filename`
callback in both variants: `Date.now() + '-' +
Math.round(Math.random() * 1E9) + path.extname(file.originalname)`.
`t` is the timestamp, `r` the rounded random component and `ext` the
extension extracted by `path.extname`. -/
def uniqueName (t r : Nat) (ext : String) : String :=
  natToString t ++ "-" ++ natToString r ++ ext

/-- The stored names produced by a sequence of upload events, each event
described by its timestamp draw, its random draw and its extension. -/
def storedNames (events : List (Nat × Nat × String)) : List String :=
  events.map fun e => uniqueName e.1 e.2.1 e.2.2

/-- The `req.file` object produced by multer for an accepted upload. -/
structure UploadFile where
  originalname : String
  mimetype : String
  size : Nat
deriving DecidableEq

/-- Outcome of a request that returns a status and mutates (or not) the
server state. -/
structure RouteOutcome where
  status : Nat
  st : ServerState
deriving DecidableEq

/-- Route `POST /api/upload` (both variants; the basic variant has no
`description` field, which the enhanced handler defaults to `""`).
Multer runs before the handler body.  Modelled from the spec: the
multer size enforcement is library code not present in `src/`; per the
spec it rejects streams exceeding `sizeLimit` before or during the
write, leaving no oversized file behind, and the resulting error is
mapped to a 500 response without the handler body running.  `t`, `r`
and `ext` are the inputs of the stored-name generator. -/
def postUpload (file : Option UploadFile) (descr : Option String)
    (t r : Nat) (ext : String) (now : Nat) (s : ServerState) : RouteOutcome :=
  match file with
  | none => ⟨400, s⟩
  | some f =>
    if f.size > sizeLimit then ⟨500, s⟩
    else
      let stored := uniqueName t r ext
      let doc : FileRec :=
        { id := s.nextId, filename := stored, originalName := f.originalname,
          mimetype := f.mimetype, size := f.size,
          description := descr.getD "", uploadDate := now }
      ⟨200, { s with disk := s.disk ++ [stored],
                     files := s.files ++ [doc],
                     nextId := s.nextId + 1 }⟩

/-- Insertion step of a stable newest-first sort: the element `x` is
placed before the first element whose key is at most `key x`, so the
elements kept in front of it all have strictly larger keys. -/
def insertByKeyDesc {α : Type} (key : α → Nat) (x : α) : List α → List α
  | [] => [x]
  | y :: ys => if key y ≤ key x then x :: y :: ys else y :: insertByKeyDesc key x ys

/-- Stable insertion sort by descending key.  Modelled from the spec:
the `.sort({ field: -1 })` ordering is performed by MongoDB, library
code not present in `src/`; the spec describes it as newest-first and
stable for ties by insertion order, and this function realises exactly
that contract. -/
def sortByKeyDesc {α : Type} (key : α → Nat) : List α → List α
  | [] => []
  | x :: l => insertByKeyDesc key x (sortByKeyDesc key l)

/-- Route `GET /api/files` (both variants): `File.find().sort({
uploadDate: -1 })`.  The handler then maps each document to a response
object, preserving order, so the record list order is the response
order. -/
def getFilesRoute (s : ServerState) : List FileRec :=
  sortByKeyDesc (fun f => f.uploadDate) s.files

/-- Route `GET /api/contacts` (enhanced variant): `Contact.find().sort({
date: -1 })`. -/
def getContactsRoute (s : ServerState) : List ContactRec :=
  sortByKeyDesc (fun c => c.date) s.contacts

/-- Lookup of `File.findById`: the document of the collection with the
given identifier, if any. -/
def findFile (idv : Nat) (l : List FileRec) : Option FileRec :=
  l.find? fun f => f.id == idv

/-- Field update applied by `File.findByIdAndUpdate(id, { originalName,
description })`: Mongoose strips `undefined` keys from the update, so a
missing body field leaves the stored field untouched. -/
def applyFileUpdate (n d : Option String) (f : FileRec) : FileRec :=
  { f with originalName := n.getD f.originalName,
           description := d.getD f.description }

/-- Route `PUT /api/files/:id` (enhanced variant, lines 276-300):
`findByIdAndUpdate` returns the updated document or null; null is
mapped to 404 and nothing changes. -/
def putFileEnhanced (idv : Nat) (n d : Option String) (s : ServerState) :
    RouteOutcome :=
  match findFile idv s.files with
  | none => ⟨404, s⟩
  | some _ =>
    ⟨200, { s with files :=
        s.files.map fun f => if f.id = idv then applyFileUpdate n d f else f }⟩

/-- Route `DELETE /api/files/:id`, basic variant (lines 97-108): when
the id is found, `fs.unlinkSync` is called unconditionally; if the blob
is absent it throws, the `catch` answers 500 and `findByIdAndDelete` is
never reached.  When the id is not found the `if` body is skipped and
the handler still answers `{ success: true }`. -/
def deleteFileBasic (idv : Nat) (s : ServerState) : RouteOutcome :=
  match findFile idv s.files with
  | none => ⟨200, s⟩
  | some f =>
    if f.filename ∈ s.disk then
      ⟨200, { s with disk := s.disk.erase f.filename,
                     files := s.files.filter fun g => g.id != idv }⟩
    else ⟨500, s⟩

/-- Route `DELETE /api/files/:id`, enhanced variant (lines 303-320):
`fs.existsSync` guards the unlink, so an absent blob is tolerated; an
unknown id answers 404. -/
def deleteFileEnhanced (idv : Nat) (s : ServerState) : RouteOutcome :=
  match findFile idv s.files with
  | none => ⟨404, s⟩
  | some f =>
    let disk1 := if f.filename ∈ s.disk then s.disk.erase f.filename else s.disk
    ⟨200, { s with disk := disk1,
                   files := s.files.filter fun g => g.id != idv }⟩

/-- Response of `GET /api/health` (enhanced variant, lines 406-412),
as the ordered list of JSON keys and values. -/
structure HealthResp where
  status : Nat
  body : List (String × String)
deriving DecidableEq

/-- Route `GET /api/health`: answers a constant object `{ status: "OK",
timestamp, service: "Portfolio Backend" }`.  The handler reads no
server state at all, which the unused state parameter makes visible. -/
def getHealth (now : String) (_s : ServerState) : HealthResp :=
  ⟨200, [("status", "OK"), ("timestamp", now), ("service", "Portfolio Backend")]⟩

/-- Empty server state with a connected repository. -/
def emptyState : ServerState :=
  { files := [], contacts := [], disk := [], nextId := 0, dbConnected := true }

/-- A stored file document used as concrete test data. -/
def sampleFile : FileRec :=
  { id := 0, filename := "f1.txt", originalName := "a.txt",
    mimetype := "text/plain", size := 10, description := "", uploadDate := 100 }

/-- State holding one file document whose blob is absent from disk. -/
def orphanState : ServerState := { emptyState with files := [sampleFile] }

/-- A contact request with all required fields present and non-empty. -/
def validReq : ContactReq :=
  { name := some "A", email := some "a@x.com", subject := none, message := some "hi" }

/-- C1: for every contact submission with non-empty name, email and
message whose repository save succeeds, both handler variants append
exactly one ContactMessage document and attempt at least one outbound
email; whenever a relay send fails after the save, the response is 500
and the appended document remains in the collection (no rollback). -/
theorem contact_valid_persists_C1 (req : ContactReq) (now : Nat) (s : ServerState)
    (hn : truthy req.name = true) (he : truthy req.email = true)
    (hm : truthy req.message = true) :
    (∀ sendOk : Bool,
      (postContactBasic req now true sendOk s).st.contacts =
        s.contacts ++ [mkContactBasic req now s.nextId] ∧
      (postContactBasic req now true sendOk s).st.files = s.files ∧
      1 ≤ (postContactBasic req now true sendOk s).emailsAttempted ∧
      (sendOk = false → (postContactBasic req now true sendOk s).status = 500)) ∧
    (∀ send1 send2 : Bool,
      (postContactEnhanced req now true send1 send2 s).st.contacts =
        s.contacts ++ [mkContactEnhanced req now s.nextId] ∧
      (postContactEnhanced req now true send1 send2 s).st.files = s.files ∧
      1 ≤ (postContactEnhanced req now true send1 send2 s).emailsAttempted ∧
      ((send1 = false ∨ send2 = false) →
        (postContactEnhanced req now true send1 send2 s).status = 500)) := by
  constructor
  · intro sendOk
    cases sendOk <;> simp [postContactBasic, hn, he, hm]
  · intro send1 send2
    cases send1 <;> cases send2 <;> simp [postContactEnhanced, hn, he, hm]

/-- Witness for C1 at a concrete valid request with a failing relay:
the basic handler answers 500 yet the record is persisted and one email
was attempted. -/
theorem contact_valid_persists_C1_witness :
    (postContactBasic validReq 7 true false emptyState).st.contacts =
      emptyState.contacts ++ [mkContactBasic validReq 7 emptyState.nextId] ∧
    1 ≤ (postContactBasic validReq 7 true false emptyState).emailsAttempted ∧
    (postContactBasic validReq 7 true false emptyState).status = 500 := by
  have h := (contact_valid_persists_C1 validReq 7 emptyState
    (by decide) (by decide) (by decide)).1 false
  exact ⟨h.1, h.2.2.1, h.2.2.2 rfl⟩

/-- C2: for every contact submission in which name, email or message is
missing or empty, both handler variants answer 400 with the state
unchanged and zero emails attempted, whatever the outcomes of the
external services would have been. -/
theorem contact_invalid_no_side_effects_C2 (req : ContactReq) (now : Nat)
    (s : ServerState) (saveOk sendOk send1 send2 : Bool)
    (h : truthy req.name = false ∨ truthy req.email = false ∨
      truthy req.message = false) :
    postContactBasic req now saveOk sendOk s = ⟨400, s, 0⟩ ∧
    postContactEnhanced req now saveOk send1 send2 s = ⟨400, s, 0⟩ := by
  rcases h with h | h | h <;>
    simp [postContactBasic, postContactEnhanced, h]

/-- Witness for C2: a request with a missing name is rejected with 400
and no side effect by both variants. -/
theorem contact_invalid_no_side_effects_C2_witness :
    postContactBasic ⟨none, some "a@x.com", none, some "hi"⟩ 0 true true emptyState =
      ⟨400, emptyState, 0⟩ ∧
    postContactEnhanced ⟨none, some "a@x.com", none, some "hi"⟩ 0 true true true
      emptyState = ⟨400, emptyState, 0⟩ :=
  contact_invalid_no_side_effects_C2 ⟨none, some "a@x.com", none, some "hi"⟩
    0 emptyState true true true true (Or.inl rfl)

/-- A file whose byte length is exactly the multer limit. -/
def atLimitFile : UploadFile :=
  { originalname := "a.txt", mimetype := "text/plain", size := 52428800 }

/-- Counterexample to C3 as stated: an upload whose size is exactly at
the 50 MiB limit is not rejected — the store step succeeds and a
metadata record is inserted, so "at or over the size limit" fails at
the boundary. -/
theorem upload_at_limit_counter_C3 :
    atLimitFile.size = sizeLimit ∧
    (postUpload (some atLimitFile) none 1 2 ".txt" 3 emptyState).status = 200 ∧
    (postUpload (some atLimitFile) none 1 2 ".txt" 3 emptyState).st.files.length
      = 1 := by
  refine ⟨rfl, rfl, rfl⟩

/-- C3 (amended): for every upload whose byte length is strictly over
the 50 MiB limit, the store step fails, no file is left on disk and no
metadata record is inserted (the state is returned unchanged with a 500
status). -/
theorem upload_over_limit_rejected_C3 (f : UploadFile) (d : Option String)
    (t r : Nat) (ext : String) (now : Nat) (s : ServerState)
    (h : sizeLimit < f.size) :
    postUpload (some f) d t r ext now s = ⟨500, s⟩ := by
  simp [postUpload, h]

/-- Witness for C3 at one byte over the limit. -/
theorem upload_over_limit_rejected_C3_witness :
    postUpload (some ⟨"a.txt", "text/plain", 52428801⟩) none 1 2 ".txt" 3
      emptyState = ⟨500, emptyState⟩ :=
  upload_over_limit_rejected_C3 ⟨"a.txt", "text/plain", 52428801⟩ none 1 2
    ".txt" 3 emptyState (by decide)

/-- Counterexample to C4 as stated: in the basic variant an unknown id
does not yield a 404 — the handler answers 200 `{ success: true }`. -/
theorem delete_missing_basic_counter_C4 :
    findFile 7 emptyState.files = none ∧
    (deleteFileBasic 7 emptyState).status = 200 ∧
    (deleteFileBasic 7 emptyState).status ≠ 404 := by
  decide

/-- C4 (amended): for every delete request whose id is not in the
repository, the enhanced variant answers 404 and the basic variant
answers 200 silent success; neither changes the state. -/
theorem delete_missing_status_C4 (idv : Nat) (s : ServerState)
    (h : findFile idv s.files = none) :
    deleteFileEnhanced idv s = ⟨404, s⟩ ∧ deleteFileBasic idv s = ⟨200, s⟩ := by
  constructor <;> simp [deleteFileEnhanced, deleteFileBasic, h]

/-- Witness for C4 on the empty repository. -/
theorem delete_missing_status_C4_witness :
    deleteFileEnhanced 7 emptyState = ⟨404, emptyState⟩ ∧
    deleteFileBasic 7 emptyState = ⟨200, emptyState⟩ :=
  delete_missing_status_C4 7 emptyState rfl

/-- Counterexample to C5 as stated: in the basic variant the unlink is
not guarded by an existence check, so deleting an Upload whose blob is
already absent raises, the handler answers 500 and the delete does not
complete (the record survives). -/
theorem delete_blob_absent_basic_counter_C5 :
    findFile 0 orphanState.files = some sampleFile ∧
    sampleFile.filename ∉ orphanState.disk ∧
    (deleteFileBasic 0 orphanState).status = 500 ∧
    (deleteFileBasic 0 orphanState).st = orphanState := by
  decide

/-- C5 (amended): in the enhanced variant existence is checked before
unlinking, so deleting an Upload whose blob is absent still completes:
the handler answers 200, the disk is untouched and the record is
removed; in the basic variant the unguarded unlink raises instead. -/
theorem delete_blob_absent_enhanced_C5 (idv : Nat) (s : ServerState)
    (f : FileRec) (hf : findFile idv s.files = some f)
    (hd : f.filename ∉ s.disk) :
    (deleteFileEnhanced idv s).status = 200 ∧
    (deleteFileEnhanced idv s).st.disk = s.disk ∧
    (deleteFileEnhanced idv s).st.files = s.files.filter fun g => g.id != idv := by
  refine ⟨?_, ?_, ?_⟩ <;> simp [deleteFileEnhanced, hf, hd]

/-- Witness for C5: deleting the orphan record succeeds in the enhanced
variant. -/
theorem delete_blob_absent_enhanced_C5_witness :
    (deleteFileEnhanced 0 orphanState).status = 200 ∧
    (deleteFileEnhanced 0 orphanState).st.disk = orphanState.disk ∧
    (deleteFileEnhanced 0 orphanState).st.files =
      orphanState.files.filter fun g => g.id != 0 :=
  delete_blob_absent_enhanced_C5 0 orphanState sampleFile rfl (by decide)

/-- C10: in the basic variant, a delete request whose id exists but
whose blob is absent from disk answers 500 and leaves the whole server
state unchanged — in particular the metadata record is not deleted. -/
theorem delete_blob_absent_basic_C10 (idv : Nat) (s : ServerState)
    (f : FileRec) (hf : findFile idv s.files = some f)
    (hd : f.filename ∉ s.disk) :
    deleteFileBasic idv s = ⟨500, s⟩ := by
  simp [deleteFileBasic, hf, hd]

/-- Witness for C10 on the orphan state. -/
theorem delete_blob_absent_basic_C10_witness :
    deleteFileBasic 0 orphanState = ⟨500, orphanState⟩ :=
  delete_blob_absent_basic_C10 0 orphanState sampleFile rfl (by decide)

/-- C7: an update request on an unknown id answers 404 and changes
nothing; on any state the update touches neither the contacts, the
disk, nor the id, stored name, mimetype, size or upload date of any
file record, and every record either survives unchanged (other ids) or
is replaced by its originalName/description update (matching id). -/
theorem putFile_frame_C7 (idv : Nat) (n d : Option String) (s : ServerState) :
    (findFile idv s.files = none → putFileEnhanced idv n d s = ⟨404, s⟩) ∧
    (putFileEnhanced idv n d s).st.contacts = s.contacts ∧
    (putFileEnhanced idv n d s).st.disk = s.disk ∧
    ((putFileEnhanced idv n d s).st.files.map
        (fun f => (f.id, f.filename, f.mimetype, f.size, f.uploadDate)) =
      s.files.map fun f => (f.id, f.filename, f.mimetype, f.size, f.uploadDate)) ∧
    (∀ f ∈ s.files, f.id ≠ idv → f ∈ (putFileEnhanced idv n d s).st.files) ∧
    (∀ f ∈ s.files, f.id = idv →
      applyFileUpdate n d f ∈ (putFileEnhanced idv n d s).st.files) := by
  have hproj : ∀ f : FileRec,
      ((if f.id = idv then applyFileUpdate n d f else f).id,
       (if f.id = idv then applyFileUpdate n d f else f).filename,
       (if f.id = idv then applyFileUpdate n d f else f).mimetype,
       (if f.id = idv then applyFileUpdate n d f else f).size,
       (if f.id = idv then applyFileUpdate n d f else f).uploadDate) =
      (f.id, f.filename, f.mimetype, f.size, f.uploadDate) := by
    intro f
    by_cases hf : f.id = idv <;> simp [hf, applyFileUpdate]
  cases hfind : findFile idv s.files with
  | none =>
    have hmem : ∀ f ∈ s.files, f.id ≠ idv := by
      intro f hf
      have := List.find?_eq_none.mp hfind f hf
      simpa using this
    refine ⟨fun _ => by simp [putFileEnhanced, hfind], ?_, ?_, ?_, ?_, ?_⟩
    · simp [putFileEnhanced, hfind]
    · simp [putFileEnhanced, hfind]
    · simp [putFileEnhanced, hfind]
    · intro f hf _
      simp [putFileEnhanced, hfind, hf]
    · intro f hf hfid
      exact absurd hfid (hmem f hf)
  | some f0 =>
    refine ⟨fun hnone => ?_, ?_, ?_, ?_, ?_, ?_⟩
    · exact Option.noConfusion hnone
    · simp [putFileEnhanced, hfind]
    · simp [putFileEnhanced, hfind]
    · simp only [putFileEnhanced, hfind, List.map_map]
      exact List.map_congr_left fun f _ => hproj f
    · intro f hf hfid
      simp only [putFileEnhanced, hfind]
      have : (if f.id = idv then applyFileUpdate n d f else f) = f := by
        simp [hfid]
      exact this ▸ List.mem_map_of_mem _ hf
    · intro f hf hfid
      simp only [putFileEnhanced, hfind]
      have : (if f.id = idv then applyFileUpdate n d f else f) =
          applyFileUpdate n d f := by simp [hfid]
      exact this ▸ List.mem_map_of_mem _ hf

/-- Witness for C7: an update on an unknown id of the empty state is a
404 with no change. -/
theorem putFile_frame_C7_witness :
    putFileEnhanced 5 (some "b.txt") none emptyState = ⟨404, emptyState⟩ :=
  (putFile_frame_C7 5 (some "b.txt") none emptyState).1 rfl

/-- Counterexample to C9 as stated: the health response is identical
whether the repository is connected or not, and its keys are exactly
the three static ones, so it contains no repository connectivity
flag. -/
theorem health_no_connectivity_counter_C9 :
    getHealth "T" { emptyState with dbConnected := true } =
      getHealth "T" { emptyState with dbConnected := false } ∧
    (getHealth "T" emptyState).body.map Prod.fst =
      ["status", "timestamp", "service"] := by
  decide

/-- C9 (amended): the health endpoint never fails — it answers 200 with
the static payload of status, timestamp and service name — and its
response is independent of the server state, hence carries no
repository connectivity flag. -/
theorem health_static_C9 (now : String) (s1 s2 : ServerState) :
    (getHealth now s1).status = 200 ∧
    (getHealth now s1).body =
      [("status", "OK"), ("timestamp", now), ("service", "Portfolio Backend")] ∧
    getHealth now s1 = getHealth now s2 :=
  ⟨rfl, rfl, rfl⟩

/-- Membership in an insertion step is membership in the inserted
element or in the original list. -/
theorem mem_insertByKeyDesc {α : Type} (key : α → Nat) (x a : α) (l : List α) :
    a ∈ insertByKeyDesc key x l ↔ a = x ∨ a ∈ l := by
  induction l with
  | nil => simp [insertByKeyDesc]
  | cons y ys ih =>
    by_cases hle : key y ≤ key x
    · simp [insertByKeyDesc, hle]
    · simp only [insertByKeyDesc, if_neg hle, List.mem_cons, ih]
      tauto

/-- Inserting into a list sorted by descending key keeps it sorted. -/
theorem pairwise_insertByKeyDesc {α : Type} (key : α → Nat) (x : α)
    (l : List α) (h : l.Pairwise fun a b => key b ≤ key a) :
    (insertByKeyDesc key x l).Pairwise fun a b => key b ≤ key a := by
  induction l with
  | nil => simp [insertByKeyDesc]
  | cons y ys ih =>
    rcases List.pairwise_cons.mp h with ⟨hy, hys⟩
    by_cases hle : key y ≤ key x
    · rw [insertByKeyDesc, if_pos hle]
      refine List.pairwise_cons.mpr ⟨?_, h⟩
      intro b hb
      rcases List.mem_cons.mp hb with rfl | hb2
      · exact hle
      · exact le_trans (hy b hb2) hle
    · rw [insertByKeyDesc, if_neg hle]
      refine List.pairwise_cons.mpr ⟨?_, ih hys⟩
      intro b hb
      rcases (mem_insertByKeyDesc key x b ys).mp hb with rfl | hb2
      · omega
      · exact hy b hb2

/-- An insertion step is a permutation of consing the element. -/
theorem perm_insertByKeyDesc {α : Type} (key : α → Nat) (x : α) (l : List α) :
    List.Perm (insertByKeyDesc key x l) (x :: l) := by
  induction l with
  | nil => exact List.Perm.refl [x]
  | cons y ys ih =>
    by_cases hle : key y ≤ key x
    · rw [insertByKeyDesc, if_pos hle]
    · rw [insertByKeyDesc, if_neg hle]
      exact (List.Perm.cons y ih).trans (List.Perm.swap x y ys)

/-- The sort output is a permutation of its input. -/
theorem perm_sortByKeyDesc {α : Type} (key : α → Nat) (l : List α) :
    List.Perm (sortByKeyDesc key l) l := by
  induction l with
  | nil => exact List.Perm.refl []
  | cons x xs ih =>
    exact (perm_insertByKeyDesc key x _).trans (List.Perm.cons x ih)

/-- The sort output is ordered by descending key. -/
theorem pairwise_sortByKeyDesc {α : Type} (key : α → Nat) (l : List α) :
    (sortByKeyDesc key l).Pairwise fun a b => key b ≤ key a := by
  induction l with
  | nil => simp [sortByKeyDesc]
  | cons x xs ih => exact pairwise_insertByKeyDesc key x _ ih

/-- Filtering an insertion step at a fixed key value: the elements the
insertion skips over all have strictly larger keys, so an element whose
key is the filtered value lands in front of the equal-key elements of
the original list, and an element with another key is invisible to the
filter. -/
theorem filter_insertByKeyDesc {α : Type} (key : α → Nat) (dv : Nat) (x : α)
    (l : List α) :
    (insertByKeyDesc key x l).filter (fun a => key a == dv) =
      if key x == dv then x :: l.filter (fun a => key a == dv)
      else l.filter fun a => key a == dv := by
  induction l with
  | nil =>
    by_cases hx : key x == dv <;> simp [insertByKeyDesc, List.filter, hx]
  | cons y ys ih =>
    by_cases hle : key y ≤ key x
    · rw [insertByKeyDesc, if_pos hle]
      by_cases hx : key x == dv <;> simp [List.filter_cons, hx]
    · rw [insertByKeyDesc, if_neg hle]
      by_cases hx : key x == dv
      · have hxv : key x = dv := by simpa using hx
        have hyv : (key y == dv) = false := by
          simp only [beq_eq_false_iff_ne, ne_eq]
          omega
        simp [List.filter_cons, hyv, ih, hx]
      · by_cases hy : key y == dv <;> simp [List.filter_cons, hy, ih, hx]

/-- The sort is stable: at every key value, the filtered subsequence of
the output equals the filtered subsequence of the input, so equal-key
elements stay in insertion order. -/
theorem filter_sortByKeyDesc {α : Type} (key : α → Nat) (dv : Nat)
    (l : List α) :
    (sortByKeyDesc key l).filter (fun a => key a == dv) =
      l.filter fun a => key a == dv := by
  induction l with
  | nil => rfl
  | cons x xs ih =>
    rw [sortByKeyDesc, filter_insertByKeyDesc]
    by_cases hx : key x == dv <;> simp [hx, ih, List.filter_cons]

/-- C6: both listing routes return a permutation of the stored records
that is ordered by descending creation timestamp (`uploadDate` for
files, `date` for contacts) and stable: for every timestamp value, the
records carrying it appear in insertion order. -/
theorem listing_sorted_stable_C6 (s : ServerState) :
    (getFilesRoute s).Pairwise (fun a b => b.uploadDate ≤ a.uploadDate) ∧
    List.Perm (getFilesRoute s) s.files ∧
    (∀ dv : Nat, (getFilesRoute s).filter (fun f => f.uploadDate == dv) =
      s.files.filter fun f => f.uploadDate == dv) ∧
    (getContactsRoute s).Pairwise (fun a b => b.date ≤ a.date) ∧
    List.Perm (getContactsRoute s) s.contacts ∧
    (∀ dv : Nat, (getContactsRoute s).filter (fun c => c.date == dv) =
      s.contacts.filter fun c => c.date == dv) :=
  ⟨pairwise_sortByKeyDesc _ _, perm_sortByKeyDesc _ _,
   fun dv => filter_sortByKeyDesc _ dv _,
   pairwise_sortByKeyDesc _ _, perm_sortByKeyDesc _ _,
   fun dv => filter_sortByKeyDesc _ dv _⟩

/-- Decimal digit characters are pairwise distinct. -/
theorem digitChar_inj_lt :
    ∀ a < 10, ∀ b < 10, Nat.digitChar a = Nat.digitChar b → a = b := by
  decide

/-- Decimal digit characters are never the dash separator. -/
theorem digitChar_ne_dash : ∀ a < 10, Nat.digitChar a ≠ '-' := by
  decide

/-- Mapping `Nat.digitChar` over lists of decimal digits is injective. -/
theorem map_digitChar_inj :
    ∀ l1 l2 : List Nat, (∀ x ∈ l1, x < 10) → (∀ x ∈ l2, x < 10) →
      l1.map Nat.digitChar = l2.map Nat.digitChar → l1 = l2 := by
  intro l1
  induction l1 with
  | nil =>
    intro l2 _ _ h
    cases l2 with
    | nil => rfl
    | cons b bs => simp at h
  | cons a as ih =>
    intro l2 h1 h2 h
    cases l2 with
    | nil => simp at h
    | cons b bs =>
      simp only [List.map_cons, List.cons.injEq] at h
      have hab : a = b :=
        digitChar_inj_lt a (h1 a (List.mem_cons_self a as))
          b (h2 b (List.mem_cons_self b bs)) h.1
      have htail : as = bs :=
        ih bs (fun x hx => h1 x (List.mem_cons_of_mem a hx))
          (fun x hx => h2 x (List.mem_cons_of_mem b hx)) h.2
      rw [hab, htail]

/-- With enough fuel, `natToChars` renders exactly the base-10 digits
of its argument, most significant first. -/
theorem natToChars_eq_digits (fuel : Nat) :
    ∀ n : Nat, n ≠ 0 → n < fuel →
      natToChars fuel n = ((Nat.digits 10 n).map Nat.digitChar).reverse := by
  induction fuel with
  | zero => intro n _ h; omega
  | succ f ih =>
    intro n hn hlt
    have hdig : Nat.digits 10 n = n % 10 :: Nat.digits 10 (n / 10) :=
      Nat.digits_def' (by norm_num) (Nat.pos_of_ne_zero hn)
    by_cases h10 : n < 10
    · have hmod : n % 10 = n := Nat.mod_eq_of_lt h10
      have hdiv : n / 10 = 0 := Nat.div_eq_of_lt h10
      rw [natToChars, if_pos h10, hdig, hmod, hdiv]
      simp
    · have hq0 : n / 10 ≠ 0 := by omega
      have hqs : n / 10 < n := Nat.div_lt_self (by omega) (by omega)
      have hqf : n / 10 < f := by omega
      rw [natToChars, if_neg h10, ih (n / 10) hq0 hqf, hdig]
      simp

/-- The dash separator never occurs in a decimal rendering. -/
theorem dash_not_mem_natToChars (fuel : Nat) :
    ∀ n : Nat, ('-' : Char) ∉ natToChars fuel n := by
  induction fuel with
  | zero => intro n; simp [natToChars]
  | succ f ih =>
    intro n
    by_cases h10 : n < 10
    · rw [natToChars, if_pos h10]
      simp only [List.mem_singleton]
      intro hEq
      exact digitChar_ne_dash n h10 hEq.symm
    · rw [natToChars, if_neg h10]
      simp only [List.mem_append, List.mem_singleton]
      rintro (hmem | hEq)
      · exact ih (n / 10) hmem
      · exact digitChar_ne_dash (n % 10) (Nat.mod_lt n (by omega)) hEq.symm

/-- The fueled decimal rendering is injective (at the canonical fuel
used by `natToString`). -/
theorem natToChars_inj (a b : Nat)
    (h : natToChars (a + 1) a = natToChars (b + 1) b) : a = b := by
  by_cases ha : a = 0 <;> by_cases hb : b = 0
  · omega
  · exfalso
    subst ha
    rw [natToChars_eq_digits (b + 1) b hb (by omega)] at h
    have h0 : natToChars 1 0 = ['0'] := rfl
    rw [h0] at h
    have hrev : (Nat.digits 10 b).map Nat.digitChar = ['0'] := by
      have := congrArg List.reverse h
      simpa using this.symm
    have : Nat.digits 10 b = [0] := by
      have h00 : ([0] : List Nat).map Nat.digitChar = ['0'] := rfl
      refine map_digitChar_inj _ [0]
        (fun x hx => Nat.digits_lt_base (by norm_num) hx) ?_ ?_
      · intro x hx
        simp at hx
        omega
      · rw [hrev, h00]
    have hb0 : b = 0 := by
      have := congrArg (Nat.ofDigits 10) this
      rw [Nat.ofDigits_digits] at this
      simpa [Nat.ofDigits] using this
    exact hb hb0
  · exfalso
    subst hb
    rw [natToChars_eq_digits (a + 1) a ha (by omega)] at h
    have h0 : natToChars 1 0 = ['0'] := rfl
    rw [h0] at h
    have hrev : (Nat.digits 10 a).map Nat.digitChar = ['0'] := by
      have := congrArg List.reverse h
      simpa using this
    have : Nat.digits 10 a = [0] := by
      have h00 : ([0] : List Nat).map Nat.digitChar = ['0'] := rfl
      refine map_digitChar_inj _ [0]
        (fun x hx => Nat.digits_lt_base (by norm_num) hx) ?_ ?_
      · intro x hx
        simp at hx
        omega
      · rw [hrev, h00]
    have ha0 : a = 0 := by
      have := congrArg (Nat.ofDigits 10) this
      rw [Nat.ofDigits_digits] at this
      simpa [Nat.ofDigits] using this
    exact ha ha0
  · rw [natToChars_eq_digits (a + 1) a ha (by omega),
      natToChars_eq_digits (b + 1) b hb (by omega)] at h
    have hrev := List.reverse_injective h
    have hdig := map_digitChar_inj _ _
      (fun x hx => Nat.digits_lt_base (by norm_num) hx)
      (fun x hx => Nat.digits_lt_base (by norm_num) hx) hrev
    have := congrArg (Nat.ofDigits 10) hdig
    rwa [Nat.ofDigits_digits, Nat.ofDigits_digits] at this

/-- Splitting two equal character lists at their first dash: when
neither prefix contains a dash, the prefixes and the remainders agree
separately. -/
theorem append_dash_inj :
    ∀ l1 l2 m1 m2 : List Char, ('-' : Char) ∉ l1 → ('-' : Char) ∉ l2 →
      l1 ++ '-' :: m1 = l2 ++ '-' :: m2 → l1 = l2 ∧ m1 = m2 := by
  intro l1
  induction l1 with
  | nil =>
    intro l2 m1 m2 _ h2 h
    cases l2 with
    | nil => simpa using h
    | cons c cs =>
      exfalso
      simp only [List.nil_append, List.cons_append, List.cons.injEq] at h
      exact h2 (h.1 ▸ List.mem_cons_self c cs)
  | cons c cs ih =>
    intro l2 m1 m2 h1 h2 h
    cases l2 with
    | nil =>
      exfalso
      simp only [List.nil_append, List.cons_append, List.cons.injEq] at h
      exact h1 (h.1 ▸ List.mem_cons_self c cs)
    | cons d ds =>
      simp only [List.cons_append, List.cons.injEq] at h
      have hcs : cs = ds ∧ m1 = m2 :=
        ih ds m1 m2 (fun hm => h1 (List.mem_cons_of_mem c hm))
          (fun hm => h2 (List.mem_cons_of_mem d hm)) h.2
      exact ⟨by rw [h.1, hcs.1], hcs.2⟩

/-- Character data of a generated stored name: decimal timestamp, dash,
decimal random component, then the extension. -/
theorem uniqueName_data (t r : Nat) (ext : String) :
    (uniqueName t r ext).data =
      natToChars (t + 1) t ++ '-' :: (natToChars (r + 1) r ++ ext.data) := by
  show (natToString t ++ "-" ++ natToString r ++ ext).data = _
  rw [String.data_append, String.data_append, String.data_append]
  show (natToChars (t + 1) t ++ ['-']) ++ natToChars (r + 1) r ++ ext.data = _
  simp [List.append_assoc]

/-- Counterexample to C8 as stated: two upload events can draw the same
timestamp and the same random component, and then their stored names
coincide — distinctness is not guaranteed for arbitrary pairs of
uploads. -/
theorem uniqueName_collision_counter_C8 :
    ¬ (storedNames [(1000, 5, ".txt"), (1000, 5, ".txt")]).Nodup := by
  decide

/-- C8 (amended): a stored name combines the decimal timestamp, a dash,
the decimal random component and the original extension (which it
therefore preserves as a suffix), and two uploads with the same
extension receive distinct stored names whenever their timestamps or
their random components differ; only a simultaneous coincidence of both
draws collides. -/
theorem uniqueName_distinct_C8 (t1 r1 t2 r2 : Nat) (ext : String)
    (h : t1 ≠ t2 ∨ r1 ≠ r2) :
    uniqueName t1 r1 ext ≠ uniqueName t2 r2 ext ∧
    ext.data <:+ (uniqueName t1 r1 ext).data := by
  constructor
  · intro heq
    have hdata := congrArg String.data heq
    rw [uniqueName_data, uniqueName_data] at hdata
    have hsplit := append_dash_inj _ _ _ _
      (dash_not_mem_natToChars (t1 + 1) t1)
      (dash_not_mem_natToChars (t2 + 1) t2) hdata
    have ht : t1 = t2 := natToChars_inj t1 t2 hsplit.1
    have hr : r1 = r2 := by
      have := List.append_cancel_right hsplit.2
      exact natToChars_inj r1 r2 this
    rcases h with h | h
    · exact h ht
    · exact h hr
  · refine ⟨natToChars (t1 + 1) t1 ++ '-' :: natToChars (r1 + 1) r1, ?_⟩
    rw [uniqueName_data]
    simp

/-- Witness for C8: same instant, same extension, different random
draws give different stored names. -/
theorem uniqueName_distinct_C8_witness :
    uniqueName 1000 5 ".txt" ≠ uniqueName 1000 6 ".txt" :=
  (uniqueName_distinct_C8 1000 5 1000 6 ".txt" (Or.inr (by decide))).1

end Portfilo
